import Mathlib

/-
Verification of the example Rust project (Calculator / greet / diagnostics
fixtures) against its specification.

The Calculator stores an f64 and mutates it through chained add / subtract
calls.  We embed IEEE-754 binary64 arithmetic as an executable model: a float
is a sign, an integer significand and a power-of-two exponent (plus signed
zeros, signed infinities and NaN), and addition and subtraction are the
correctly rounded (round-to-nearest, ties-to-even) exact rational results,
with the IEEE special-case rules for NaN, infinities and signed zeros.
-/

namespace LsmcpSpec

/-- Floor of the binary logarithm of a natural number (0 below 2), by binary
search over a fixed descending list of exponent chunks: the accumulator pair
carries the exponent collected so far and the remaining value, and after the
chunk s is processed the remaining value is below 2 ^ s.  The result is the
floor of the binary logarithm for every n below 2 ^ 8192; every number this
development feeds to it is far below that bound, since the numerators and
denominators of exact sums and differences of binary64 values stay below
2 ^ 2200. -/
def natLog2 (n : Nat) : Nat :=
  (([4096, 2048, 1024, 512, 256, 128, 64, 32, 16, 8, 4, 2, 1] : List Nat).foldl
    (fun p s => if Nat.pow 2 s ≤ p.2 then (p.1 + s, p.2 / Nat.pow 2 s) else p)
    ((0, n) : Nat × Nat)).1

/-- Rational power of two with an integer exponent. -/
def pow2 (e : Int) : Rat :=
  if 0 ≤ e then ((Nat.pow 2 e.toNat : Nat) : Rat) else 1 / ((Nat.pow 2 (-e).toNat : Nat) : Rat)

/-- Test whether the rational a / b (a, b natural, b positive) is strictly
below 2 ^ k, by cross multiplication in the natural numbers. -/
def ltPow2 (a b : Nat) (k : Int) : Bool :=
  if 0 ≤ k then Nat.blt a (Nat.pow 2 k.toNat * b) else Nat.blt (a * Nat.pow 2 (-k).toNat) b

/-- Test whether 2 ^ 1024 is at most m * 2 ^ e, by cross multiplication in
the natural numbers; this is the binary64 overflow threshold test. -/
def overflowLE (m : Nat) (e : Int) : Bool :=
  if 0 ≤ e then Nat.ble (Nat.pow 2 1024) (m * Nat.pow 2 e.toNat)
  else Nat.ble (Nat.pow 2 1024 * Nat.pow 2 (-e).toNat) m

/-- Floor of the binary logarithm of the positive rational a / b: the unique
k with 2 ^ k ≤ a / b < 2 ^ (k + 1).  The candidate computed from the bit
lengths of a and b is off by at most one and is corrected by a single
comparison. -/
def ratLog2N (a b : Nat) : Int :=
  let k : Int := (natLog2 a : Int) - (natLog2 b : Int)
  if ltPow2 a b k then k - 1 else k

/-- IEEE-754 binary64 value: NaN (all payloads identified), signed infinity,
signed zero, or a nonzero finite value sign * m * 2 ^ e.  Values produced by
rounding are canonical: 2 ^ 52 ≤ m < 2 ^ 53 for normal values, or e = -1074
and 0 < m < 2 ^ 52 for subnormal values. -/
inductive F64 where
  | nan : F64
  | inf : Bool → F64
  | zero : Bool → F64
  | finite : Bool → Nat → Int → F64
deriving DecidableEq, Repr

namespace F64

/-- Exact rational value of a float; NaN and infinities are mapped to 0 (they
are always handled separately before this function is consulted). -/
def toRat : F64 → Rat
  | .nan => 0
  | .inf _ => 0
  | .zero _ => 0
  | .finite s m e => (if s then (-1 : Rat) else 1) * (m : Rat) * pow2 e

/-- True exactly for the negative zero value. -/
def isNegZero : F64 → Bool
  | .zero true => true
  | _ => false

/-- True exactly for the positive zero value. -/
def isPosZero : F64 → Bool
  | .zero false => true
  | _ => false

/-- Round the positive rational magnitude a / b with sign s to binary64
under round-to-nearest, ties-to-even: pick the exponent e so the scaled
value t = (a / b) / 2 ^ e lies in [2 ^ 52, 2 ^ 53) (clamping e at the
subnormal exponent -1074), then round t to the integer significand m.  The
scaled value t is represented exactly as the quotient n / d of naturals, so
the integer part is n / d and the tie comparison of the fractional part
against one half is the comparison of 2 * (n mod d) against d, with an exact
tie resolved to the even significand.  A significand that rounded up to
2 ^ 53 is renormalized, a result of magnitude at least 2 ^ 1024 overflows to
infinity, and a zero significand is total underflow to the signed zero. -/
def roundPosN (s : Bool) (a b : Nat) : F64 :=
  let e : Int := max (ratLog2N a b - 52) (-1074)
  let n : Nat := if 0 ≤ e then a else a * Nat.pow 2 (-e).toNat
  let d : Nat := if 0 ≤ e then b * Nat.pow 2 e.toNat else b
  let m0 : Nat := n / d
  let r2 : Nat := 2 * (n % d)
  let m : Nat :=
    if r2 < d then m0
    else if d < r2 then m0 + 1
    else if m0 % 2 = 0 then m0 else m0 + 1
  if m = 0 then F64.zero s
  else if overflowLE m e then F64.inf s
  else if m = Nat.pow 2 53 then F64.finite s (Nat.pow 2 52) (e + 1)
  else F64.finite s m e

/-- Correct rounding of an exact rational to binary64 (round-to-nearest,
ties-to-even); the zero result for an exactly zero input is the positive
zero, matching the IEEE rule for this rounding attribute.  The sign and the
numerator and denominator of the magnitude are read off the canonical
representation of the rational. -/
def round (q : Rat) : F64 :=
  if q.num = 0 then F64.zero false
  else roundPosN (decide (q.num < 0)) q.num.natAbs q.den

/-- IEEE-754 binary64 addition: NaN is absorbing, infinities of equal sign
propagate while opposite infinities give NaN, and finite operands are added
exactly and rounded.  An exactly zero sum is negative zero only when both
operands are negative zeros. -/
def add : F64 → F64 → F64
  | .nan, _ => .nan
  | _, .nan => .nan
  | .inf s, .inf t => if s = t then .inf s else .nan
  | .inf s, .zero _ => .inf s
  | .inf s, .finite _ _ _ => .inf s
  | .zero _, .inf t => .inf t
  | .finite _ _ _, .inf t => .inf t
  | x, y =>
    let q := x.toRat + y.toRat
    if q = 0 then F64.zero (x.isNegZero && y.isNegZero)
    else round q

/-- IEEE-754 binary64 subtraction: NaN is absorbing, equal-signed infinities
cancel to NaN while the others propagate, and finite operands are subtracted
exactly and rounded.  An exactly zero difference is negative zero only for
negative zero minus positive zero. -/
def sub : F64 → F64 → F64
  | .nan, _ => .nan
  | _, .nan => .nan
  | .inf s, .inf t => if s = t then .nan else .inf s
  | .inf s, .zero _ => .inf s
  | .inf s, .finite _ _ _ => .inf s
  | .zero _, .inf t => .inf (!t)
  | .finite _ _ _, .inf t => .inf (!t)
  | x, y =>
    let q := x.toRat - y.toRat
    if q = 0 then F64.zero (x.isNegZero && y.isPosZero)
    else round q

/-- IEEE-754 negation: flip the sign bit; NaN stays NaN. -/
def neg : F64 → F64
  | .nan => .nan
  | .inf s => .inf (!s)
  | .zero s => .zero (!s)
  | .finite s m e => .finite (!s) m e

end F64

/-- Embedding of the Rust struct Calculator from src/lib.rs: a single f64
field named value.  The Rust methods mutate the struct through a mutable
reference and return that reference; in the state-passing embedding each
method takes the current state and returns the updated state. -/
structure Calculator where
  value : F64
deriving DecidableEq, Repr

namespace Calculator

/-- Embedding of Calculator::new, which builds the struct with value 0.0
(the positive zero literal). -/
def new : Calculator :=
  { value := F64.zero false }

/-- Embedding of Calculator::add: the statement self.value += num followed by
returning self.  The returned calculator is the mutated state itself. -/
def add (c : Calculator) (num : F64) : Calculator :=
  { c with value := F64.add c.value num }

/-- Embedding of Calculator::subtract: the statement self.value -= num
followed by returning self. -/
def subtract (c : Calculator) (num : F64) : Calculator :=
  { c with value := F64.sub c.value num }

/-- Embedding of Calculator::get_value, which reads self.value through a
shared reference. -/
def get_value (c : Calculator) : F64 :=
  c.value

/-- Embedding of a call to Calculator::get_value as a state transformer: the
method receives the state through a shared reference, produces self.value,
and the state after the call is the unchanged receiver. -/
def get_value_call (c : Calculator) : F64 × Calculator :=
  (c.value, c)

end Calculator

/-- Operation of the operation sequences described by the specification: a
tagged variant Add(amount) or Subtract(amount) with an f64 amount. -/
inductive Operation where
  | add : F64 → Operation
  | subtract : F64 → Operation
deriving DecidableEq, Repr

/-- Dispatch of one Operation to the corresponding Calculator method call. -/
def applyOp (c : Calculator) : Operation → Calculator
  | .add a => c.add a
  | .subtract a => c.subtract a

/-- Left-to-right application of an operation sequence to a calculator,
matching a chain of method calls in program order. -/
def applyOps (c : Calculator) (ops : List Operation) : Calculator :=
  ops.foldl applyOp c

/-- Written from the claim wording for C1: sequentially apply IEEE-754 f64
addition of each add amount and f64 subtraction of each subtract amount,
starting from 0.0, in exactly the sequence order. -/
def sequentialSpec (ops : List Operation) : F64 :=
  ops.foldl
    (fun v op =>
      match op with
      | .add a => F64.add v a
      | .subtract a => F64.sub v a)
    (F64.zero false)

/-- Exact-arithmetic evaluation step for an operation, acting on the rational
contents instead of the rounded f64 value. -/
def exactStep (v : Rat) : Operation → Rat
  | .add a => v + a.toRat
  | .subtract a => v - a.toRat

/-- Exact-arithmetic evaluation of an operation sequence from an initial
rational value. -/
def exactEval (v0 : Rat) (ops : List Operation) : Rat :=
  ops.foldl exactStep v0

/-- Binary64 value 1.0, with canonical significand and exponent. -/
def oneF : F64 := F64.finite false 4503599627370496 (-52)

/-- Binary64 value 2 ^ 53, the smallest power of two whose successor is not
representable in binary64. -/
def p53F : F64 := F64.finite false 4503599627370496 1

/-- Expansion of a one-hole format template: scan the template characters and
replace the first occurrence of an open brace immediately followed by a close
brace with the argument characters; every other character is copied
unchanged.  This embeds the format macro used by greet. -/
def substHole : List Char → List Char → List Char
  | [], _ => []
  | c :: rest, arg =>
    if c = '\x7b' ∧ rest.head? = some '\x7d' then arg ++ rest.tail
    else c :: substHole rest arg

/-- Embedding of the Rust function greet from src/lib.rs, which formats the
template Hello-comma-space-hole-bang with the given name. -/
def greet (name : String) : String :=
  String.mk (substHole "Hello, \x7b\x7d!".data name.data)

/-- Modelled from the spec: the five diagnostic categories of the closed
taxonomy in section 4.2.  No classifier implementation exists under src; the
errors file only seeds example inputs for one. -/
inductive Category where
  | typeMismatch : Category
  | undefinedReference : Category
  | syntaxError : Category
  | unusedBinding : Category
  | missingReturnValue : Category
deriving DecidableEq, Repr

/-- Modelled from the spec: one detected issue, carrying a category, a
location given as the index of the offending unit in the fragment, and a
human-readable message. -/
structure DiagnosticFinding where
  category : Category
  location : Nat
  message : String
deriving DecidableEq, Repr

/-- Modelled from the spec: the types a binding or initializer can have in
the structured fragments the classifier inspects. -/
inductive Ty where
  | intTy : Ty
  | strTy : Ty
  | unitTy : Ty
deriving DecidableEq, Repr

/-- Modelled from the spec: initializer and statement expressions of a
structured fragment: an integer literal, a string literal, or a reference to
an identifier. -/
inductive Expr where
  | intLit : Int → Expr
  | strLit : String → Expr
  | ref : String → Expr
deriving DecidableEq, Repr

/-- Modelled from the spec: statements of a structured fragment as produced
by the front end: a let binding with an optional declared type, an
initializer and a flag recording whether its terminator is present; a bare
expression statement; or a function declaration with a return type and a
flag recording whether its body contains an expression producing a value. -/
inductive Stmt where
  | letStmt : String → Option Ty → Expr → Bool → Stmt
  | exprStmt : Expr → Stmt
  | fnDecl : String → Ty → Bool → Stmt
deriving DecidableEq, Repr

/-- Modelled from the spec: one unit of structured source, either a
statement the front end tokenized successfully or a unit on which the lexer
failed catastrophically. -/
inductive LexUnit where
  | stmt : Stmt → LexUnit
  | unlexable : LexUnit
deriving DecidableEq, Repr

/-- Modelled from the spec: a fragment submitted to the classifier. -/
abbrev StructuredSource := List LexUnit

/-- Identifiers referenced by an expression. -/
def exprRefs : Expr → List String
  | .intLit _ => []
  | .strLit _ => []
  | .ref x => [x]

/-- Identifiers referenced by a statement. -/
def stmtRefs : Stmt → List String
  | .letStmt _ _ init _ => exprRefs init
  | .exprStmt e => exprRefs e
  | .fnDecl _ _ _ => []

/-- Type of an expression under an environment of bindings introduced
earlier in the fragment; none when the expression references an unbound
identifier or one whose type is unknown. -/
def tyOfExpr (env : List (String × Option Ty)) : Expr → Option Ty
  | .intLit _ => some .intTy
  | .strLit _ => some .strTy
  | .ref x => ((env.find? fun p => p.1 == x).map Prod.snd).getD none

/-- Modelled from the spec: the findings triggered by one statement, given
the environment of earlier bindings, its index, and the statements that
follow it in the fragment.  Each row of the trigger table in section 4.2 is
checked independently and findings keep source order. -/
def stmtFindings (env : List (String × Option Ty)) (i : Nat) (s : Stmt)
    (rest : List Stmt) : List DiagnosticFinding :=
  match s with
  | .letStmt name declared init terminated =>
    ((exprRefs init).filter fun x => (env.find? fun p => p.1 == x).isNone).map
        (fun x => ⟨Category.undefinedReference, i, "undefined reference to " ++ x⟩)
      ++ (match declared, tyOfExpr env init with
          | some t, some t2 =>
            if t ≠ t2 then [⟨Category.typeMismatch, i, "mismatched types for " ++ name⟩] else []
          | _, _ => [])
      ++ (if terminated = false ∧ rest ≠ [] then
            [⟨Category.syntaxError, i, "missing statement terminator"⟩]
          else [])
      ++ (if rest.all fun s2 => (stmtRefs s2).all fun x => x ≠ name then
            [⟨Category.unusedBinding, i, "unused binding " ++ name⟩]
          else [])
  | .exprStmt e =>
    ((exprRefs e).filter fun x => (env.find? fun p => p.1 == x).isNone).map
      (fun x => ⟨Category.undefinedReference, i, "undefined reference to " ++ x⟩)
  | .fnDecl name ret hasValue =>
    if ret ≠ Ty.unitTy ∧ hasValue = false then
      [⟨Category.missingReturnValue, i, "missing return value in " ++ name⟩]
    else []

/-- Modelled from the spec: classification of the tokenized statements of a
fragment, walking them in source order while extending the binding
environment, so the produced findings are ordered by source position. -/
def classifyStmts (env : List (String × Option Ty)) (i : Nat) :
    List Stmt → List DiagnosticFinding
  | [] => []
  | s :: rest =>
    stmtFindings env i s rest
      ++ classifyStmts
          (match s with
           | .letStmt name declared init _ => (name, declared <|> tyOfExpr env init) :: env
           | _ => env)
          (i + 1) rest

/-- Message of the finding reported on catastrophic lexer failure. -/
def lexFailMessage : String :=
  "cannot tokenize fragment"

/-- Offset of the earliest unit of the fragment on which the lexer failed,
scanning left to right; none when every unit was tokenized. -/
def firstFailure : StructuredSource → Option Nat
  | [] => none
  | .unlexable :: _ => some 0
  | .stmt _ :: rest => (firstFailure rest).map (· + 1)

/-- Modelled from the spec: the classify operation of section 4.2.  It is a
total function: every fragment, malformed ones included, yields a list of
findings.  If any unit of the fragment could not be tokenized, the result is
a single syntax-error finding at the earliest failure offset and no further
classification is performed; otherwise the statements are classified against
the closed five-category taxonomy. -/
def classify (src : StructuredSource) : List DiagnosticFinding :=
  match firstFailure src with
  | some off => [⟨Category.syntaxError, off, lexFailMessage⟩]
  | none =>
    classifyStmts [] 0
      (src.filterMap fun u =>
        match u with
        | .stmt s => some s
        | .unlexable => none)

/-- Folding the operation dispatch over a list acts on the value field as
the corresponding fold of the f64 operations over the starting value. -/
theorem applyOps_value (ops : List Operation) : ∀ c : Calculator,
    (applyOps c ops).value =
      ops.foldl
        (fun v op =>
          match op with
          | .add a => F64.add v a
          | .subtract a => F64.sub v a)
        c.value := by
  induction ops with
  | nil => intro c; rfl
  | cons op rest ih =>
    intro c
    cases op with
    | add a => exact ih (c.add a)
    | subtract a => exact ih (c.subtract a)

/-- C1: for every finite sequence of add and subtract operations applied
left-to-right to a calculator created by new, the final value returned by
get_value equals the result of sequentially applying f64 addition of each
add amount and f64 subtraction of each subtract amount, starting from 0.0,
in exactly the sequence order. -/
theorem calculator_matches_sequential_spec (ops : List Operation) :
    (applyOps Calculator.new ops).get_value = sequentialSpec ops :=
  applyOps_value ops Calculator.new

/-- C2: add mutates the state to state plus amount, subtract mutates it to
state minus amount, and each call returns the mutated calculator itself, on
which further calls chain. -/
theorem add_subtract_mutate_and_chain (c : Calculator) (a b : F64) :
    c.add a = { value := F64.add c.value a } ∧
    c.subtract a = { value := F64.sub c.value a } ∧
    (c.add a).subtract b = { value := F64.sub (F64.add c.value a) b } ∧
    (c.subtract a).add b = { value := F64.add (F64.sub c.value a) b } :=
  ⟨rfl, rfl, rfl, rfl⟩

/-- C3: a calculator built by new has value positive zero, so get_value
returns 0.0 before any operation is applied. -/
theorem new_initial_value : Calculator.new.get_value = F64.zero false :=
  rfl

/-- C4: the two concrete chains of the tests and of main evaluate exactly:
adding 5.0 then subtracting 2.0 from a fresh calculator gives 3.0, and
adding 10.0 then subtracting 3.0 gives 7.0.  Each numeral denotes the
binary64 value obtained by rounding the integer, which is exact here. -/
theorem concrete_chains :
    ((Calculator.new.add (F64.round 5)).subtract (F64.round 2)).get_value = F64.round 3 ∧
    ((Calculator.new.add (F64.round 10)).subtract (F64.round 3)).get_value = F64.round 7 := by
  decide!

/-- C7: a get_value call returns the current value and leaves the state
unchanged, so two consecutive calls return the same value. -/
theorem get_value_no_mutation (c : Calculator) :
    c.get_value_call.2 = c ∧
    c.get_value_call.1 = c.get_value ∧
    (c.get_value_call.2.get_value_call).1 = c.get_value_call.1 :=
  ⟨rfl, rfl, rfl⟩

/-- C5 counterexample: under IEEE-754 f64 arithmetic the final value does
depend on the order of add and subtract operations.  Adding 1.0, then
adding 2 ^ 53, then subtracting 2 ^ 53 gives 0.0, because 2 ^ 53 + 1 rounds
to 2 ^ 53; the permutation that adds 2 ^ 53, subtracts it, and then adds 1.0
gives 1.0. -/
theorem order_dependence_counterexample :
    [Operation.add oneF, Operation.add p53F, Operation.subtract p53F].Perm
      [Operation.add p53F, Operation.subtract p53F, Operation.add oneF] ∧
    (applyOps Calculator.new
        [Operation.add oneF, Operation.add p53F, Operation.subtract p53F]).get_value ≠
      (applyOps Calculator.new
        [Operation.add p53F, Operation.subtract p53F, Operation.add oneF]).get_value := by
  constructor
  · exact (List.Perm.swap (Operation.add p53F) (Operation.add oneF) _).trans
      (List.Perm.cons _ (List.Perm.swap (Operation.subtract p53F) (Operation.add oneF) _))
  · decide!

/-- C5 amended: the final value is independent of the order of the
operations when the arithmetic is exact, that is, when the operations act on
the exact rational contents instead of rounding each intermediate result to
binary64; under f64 rounding the order can matter (see the counterexample). -/
theorem exact_eval_perm_invariant (ops ops2 : List Operation) (h : ops.Perm ops2)
    (v0 : Rat) : exactEval v0 ops = exactEval v0 ops2 := by
  induction h generalizing v0 with
  | nil => rfl
  | cons x _ ih => exact ih (exactStep v0 x)
  | swap x y l =>
    have hc : exactStep (exactStep v0 y) x = exactStep (exactStep v0 x) y := by
      cases x <;> cases y <;> simp only [exactStep] <;> ring
    show exactEval (exactStep (exactStep v0 y) x) l = exactEval (exactStep (exactStep v0 x) y) l
    rw [hc]
  | trans _ _ ih1 ih2 => exact (ih1 v0).trans (ih2 v0)

/-- Witness: the amended C5 theorem applied to a concrete two-element
permutation. -/
theorem exact_eval_perm_invariant_witness :
    exactEval 0 [Operation.add oneF, Operation.subtract oneF] =
      exactEval 0 [Operation.subtract oneF, Operation.add oneF] :=
  exact_eval_perm_invariant _ _
    (List.Perm.swap (Operation.subtract oneF) (Operation.add oneF) []) 0

/-- C6: the calculator operations have no error conditions: they are total
functions, a NaN amount propagates to a NaN value, and infinite amounts
propagate by the IEEE-754 special-case rules instead of being rejected. -/
theorem no_error_conditions (c : Calculator) (s : Bool) :
    (c.add F64.nan).get_value = F64.nan ∧
    (c.subtract F64.nan).get_value = F64.nan ∧
    ((Calculator.mk F64.nan).add (F64.inf s)).get_value = F64.nan ∧
    ((Calculator.mk (F64.inf s)).add (F64.inf s)).get_value = F64.inf s ∧
    ((Calculator.mk (F64.inf s)).subtract (F64.inf s)).get_value = F64.nan ∧
    ((Calculator.mk (F64.inf s)).add (F64.inf (!s))).get_value = F64.nan ∧
    (∀ t m e, ((Calculator.mk (F64.finite t m e)).add (F64.inf s)).get_value = F64.inf s) ∧
    (∀ t m e, ((Calculator.mk (F64.finite t m e)).subtract (F64.inf s)).get_value
      = F64.inf (!s)) := by
  obtain ⟨v⟩ := c
  refine ⟨?_, ?_, rfl, ?_, ?_, ?_, fun t m e => rfl, fun t m e => rfl⟩
  · cases v <;> rfl
  · cases v <;> rfl
  · show (if s = s then F64.inf s else F64.nan) = F64.inf s
    rw [if_pos rfl]
  · show (if s = s then F64.nan else F64.inf s) = F64.nan
    rw [if_pos rfl]
  · show (if s = !s then F64.inf s else F64.nan) = F64.nan
    cases s <;> rfl

/-- C8: greet returns the template with the name substituted for the hole
and no other transformation: the result is the string Hello-comma-space,
then the name unchanged, then a bang. -/
theorem greet_format (name : String) : greet name = "Hello, " ++ name ++ "!" := by
  obtain ⟨l⟩ := name
  rfl

/-- Helper: the left-to-right scan for a lexer failure finds exactly the
least offset holding an unlexable unit. -/
theorem firstFailure_eq_some (src : StructuredSource) (off : Nat)
    (h1 : src.get? off = some LexUnit.unlexable)
    (h2 : ∀ j, j < off → src.get? j ≠ some LexUnit.unlexable) :
    firstFailure src = some off := by
  induction src generalizing off with
  | nil => simp at h1
  | cons u rest ih =>
    cases u with
    | unlexable =>
      cases off with
      | zero => rfl
      | succ k =>
        exact absurd (by simp : (LexUnit.unlexable :: rest).get? 0 = some LexUnit.unlexable)
          (h2 0 (Nat.succ_pos k))
    | stmt s =>
      cases off with
      | zero => simp at h1
      | succ k =>
        have h1h : rest.get? k = some LexUnit.unlexable := by simpa using h1
        have h2h : ∀ j, j < k → rest.get? j ≠ some LexUnit.unlexable := fun j hj => by
          have hx := h2 (j + 1) (Nat.succ_lt_succ hj)
          simpa using hx
        simp [firstFailure, ih k h1h h2h]

/-- C9: the classify operation is a total function, and on a fragment whose
lexing failed it returns exactly one syntax-error finding located at the
earliest failure offset, with no further classification of the fragment. -/
theorem classify_lex_failure (src : StructuredSource) (off : Nat)
    (h1 : src.get? off = some LexUnit.unlexable)
    (h2 : ∀ j, j < off → src.get? j ≠ some LexUnit.unlexable) :
    classify src = [⟨Category.syntaxError, off, lexFailMessage⟩] := by
  unfold classify
  rw [firstFailure_eq_some src off h1 h2]

/-- Witness: the classify theorem applied to a two-unit fragment whose
second unit is unlexable. -/
theorem classify_lex_failure_witness :
    classify [LexUnit.stmt (Stmt.exprStmt (Expr.intLit 0)), LexUnit.unlexable]
      = [⟨Category.syntaxError, 1, lexFailMessage⟩] :=
  classify_lex_failure _ 1 rfl (fun j hj => by
    cases j with
    | zero => decide
    | succ k => exact absurd hj (by omega))

/-- Negation of a float negates its exact rational value. -/
theorem F64.toRat_neg (y : F64) : (F64.neg y).toRat = -y.toRat := by
  cases y with
  | nan => simp [F64.neg, F64.toRat]
  | inf s => simp [F64.neg, F64.toRat]
  | zero s => simp [F64.neg, F64.toRat]
  | finite s m e => cases s <;> simp [F64.neg, F64.toRat, neg_mul]

/-- The exact difference of two floats is the exact sum with the negated
second operand. -/
theorem F64.toRat_sub_eq (x y : F64) : x.toRat - y.toRat = x.toRat + (F64.neg y).toRat := by
  rw [F64.toRat_neg]; ring

/-- Subtraction agrees with addition of the IEEE negation on every pair of
binary64 values, special values included. -/
theorem F64.sub_eq_add_neg_f64 (x y : F64) : F64.sub x y = F64.add x (F64.neg y) := by
  cases x with
  | nan => cases y <;> rfl
  | inf s =>
    cases y with
    | nan => rfl
    | inf t => cases s <;> cases t <;> rfl
    | zero t => rfl
    | finite t m e => rfl
  | zero sx =>
    cases y with
    | nan => rfl
    | inf t => rfl
    | zero ty => cases sx <;> cases ty <;> decide!
    | finite ty m e =>
      show (if (F64.zero sx).toRat - (F64.finite ty m e).toRat = 0
            then F64.zero ((F64.zero sx).isNegZero && (F64.finite ty m e).isPosZero)
            else F64.round ((F64.zero sx).toRat - (F64.finite ty m e).toRat))
          = F64.add (F64.zero sx) (F64.neg (F64.finite ty m e))
      rw [F64.toRat_sub_eq]
      rfl
  | finite sx mx ex =>
    cases y with
    | nan => rfl
    | inf t => rfl
    | zero ty =>
      cases ty with
      | false =>
        show (if (F64.finite sx mx ex).toRat - (F64.zero false).toRat = 0
              then F64.zero ((F64.finite sx mx ex).isNegZero && (F64.zero false).isPosZero)
              else F64.round ((F64.finite sx mx ex).toRat - (F64.zero false).toRat))
            = F64.add (F64.finite sx mx ex) (F64.neg (F64.zero false))
        rw [F64.toRat_sub_eq]
        rfl
      | true =>
        show (if (F64.finite sx mx ex).toRat - (F64.zero true).toRat = 0
              then F64.zero ((F64.finite sx mx ex).isNegZero && (F64.zero true).isPosZero)
              else F64.round ((F64.finite sx mx ex).toRat - (F64.zero true).toRat))
            = F64.add (F64.finite sx mx ex) (F64.neg (F64.zero true))
        rw [F64.toRat_sub_eq]
        rfl
    | finite ty m e =>
      show (if (F64.finite sx mx ex).toRat - (F64.finite ty m e).toRat = 0
            then F64.zero ((F64.finite sx mx ex).isNegZero && (F64.finite ty m e).isPosZero)
            else F64.round ((F64.finite sx mx ex).toRat - (F64.finite ty m e).toRat))
          = F64.add (F64.finite sx mx ex) (F64.neg (F64.finite ty m e))
      rw [F64.toRat_sub_eq]
      rfl

/-- C10: for every calculator state and every amount, subtract leaves the
calculator in exactly the state that add of the IEEE-754 negation of the
amount produces. -/
theorem subtract_eq_add_neg (c : Calculator) (a : F64) :
    c.subtract a = c.add (F64.neg a) := by
  show Calculator.mk (F64.sub c.value a) = Calculator.mk (F64.add c.value (F64.neg a))
  rw [F64.sub_eq_add_neg_f64]

end LsmcpSpec
